import Mathlib

/-! termux-api: the IPC bridge between shell commands and the Android API receiver.

A shallow embedding of `app/src/main/cpp/termux-api/termux-api.c` and
`termux-api-broadcast.c`.

* C strings are lists of characters (`CStr`); `strlen` is `List.length`.
* The heap buffer of `contact_plugin` is a list of cells, `none` being a byte that
  was never stored to; a store outside the allocation makes the encoder fail (`none`).
* System calls are answered by an explicit environment (records and scripts of
  return values); the functions are pure functions of that environment.
* `int` variables are natural numbers or integers without wrap-around. Signed
  overflow is undefined behaviour in C, so the embedding describes the program on
  argument vectors whose encoded length is representable, which every argument
  vector the kernel accepts satisfies.
-/

namespace TermuxApi

/-! ## Characters and strings -/

/-- A NUL-terminated C string, without its terminator. -/
abbrev CStr := List Char

/-- The space character. -/
def SPACE : Char := Char.ofNat 32

/-- The double-quote character. -/
def DQUOTE : Char := Char.ofNat 34

/-- The backslash character. -/
def BACKSLASH : Char := Char.ofNat 92

/-- The sentinel byte, an at sign. -/
def AT_SIGN : Char := Char.ofNat 64

/-- The zero byte. -/
def NUL : Char := Char.ofNat 0

/-- Literal `insock_str` of `contact_plugin` (line 89), closing quote included. -/
def insock_str : CStr := "--es socket_input ".toList ++ [DQUOTE]

/-- Literal `outsock_str` of `contact_plugin` (line 90). -/
def outsock_str : CStr := "--es socket_output ".toList ++ [DQUOTE]

/-- Literal `method_str` of `contact_plugin` (line 91). -/
def method_str : CStr := "--es api_method ".toList ++ [DQUOTE]

/-- The test of lines 99 and 146:
`strcmp(a, "--es") == 0 || strcmp(a, "-e") == 0 || strcmp(a, "--esa") == 0`. -/
def isFlagMarker (a : CStr) : Bool :=
  a == "--es".toList || a == "-e".toList || a == "--esa".toList

/-! ## The request buffer of `contact_plugin` -/

/-- The buffer returned by `malloc(len)` together with the write offset. A cell is
`none` until a byte is stored into it. `stores` records, in order, the offset of
every store executed so far. -/
structure Buf where
  mem : List (Option Char)
  offset : Nat
  stores : List Nat
deriving DecidableEq

/-- Allocation `char* buffer = malloc(len); int offset = 0;` (lines 109 and 111),
for a successful `malloc`. -/
def malloc (len : Nat) : Buf := ⟨List.replicate len none, 0, []⟩

/-- Statement pair `buffer[offset] = c; offset++;`. The store faults (`none`) when
`offset` is not strictly below the allocated length. -/
def Buf.putc (b : Buf) (c : Char) : Option Buf :=
  if b.offset < b.mem.length then
    some ⟨b.mem.set b.offset (some c), b.offset + 1, b.stores ++ [b.offset]⟩
  else
    none

/-- Statement pair `memcpy(buffer+offset, s, strlen(s)); offset += strlen(s);`,
byte by byte. Copying zero bytes never faults. -/
def Buf.memcpy (b : Buf) : CStr → Option Buf
  | [] => some b
  | c :: cs => (b.putc c).bind (fun b1 => Buf.memcpy b1 cs)

/-- The inner loop of lines 162-172: every character of the value is stored, a
double quote as backslash followed by double quote. -/
def escapeLoop (b : Buf) : CStr → Option Buf
  | [] => some b
  | c :: cs =>
    if c = DQUOTE then do
      let b1 ← b.putc BACKSLASH
      let b2 ← b1.putc DQUOTE
      escapeLoop b2 cs
    else do
      let b1 ← b.putc c
      escapeLoop b1 cs

/-- The loop of lines 145-184 over `argv[i]`, `i = 2 .. argc-1`; the argument list
is `argv[i..argc)`. A marker takes the next token as key and the one after as
value (the two `i++` of lines 151 and 158), each only if it exists. -/
def fillLoop (b : Buf) : List CStr → Option Buf
  | [] => some b
  | a :: rest =>
    if isFlagMarker a then do
      let b1 ← b.memcpy a
      let b2 ← b1.putc SPACE
      match rest with
      | [] => some b2
      | k :: rest2 => do
        let b3 ← b2.memcpy k
        let b4 ← b3.putc SPACE
        match rest2 with
        | [] => some b4
        | v :: rest3 => do
          let b5 ← b4.putc DQUOTE
          let b6 ← escapeLoop b5 v
          let b7 ← b6.putc DQUOTE
          let b8 ← b7.putc SPACE
          fillLoop b8 rest3
    else do
      let b1 ← b.memcpy a
      let b2 ← b1.putc SPACE
      fillLoop b2 rest

/-- The loop of lines 102-106: `len` grows by one for each double quote of the token. -/
def countQuotes (len : Nat) : CStr → Nat
  | [] => len
  | c :: cs => countQuotes (if c = DQUOTE then len + 1 else len) cs

/-- The loop of lines 97-107 over `argv[i]`, `i = 2 .. argc-1`. -/
def lenLoop (len : Nat) : List CStr → Nat
  | [] => len
  | a :: rest =>
    let len1 := len + (a.length + 1)
    let len2 := if isFlagMarker a then len1 + 2 else len1
    lenLoop (countQuotes len2 a) rest

/-- The length computed by lines 93-107. `argv[1]` is read without a check; the
result is `none` when it is absent (`strlen(NULL)`). -/
def computeLen (argv : List CStr) (input_address_string output_address_string : CStr) :
    Option Nat :=
  match argv[1]? with
  | none => none
  | some method =>
    let len0 := 0
    let len1 := len0 + (insock_str.length + output_address_string.length + 2)
    let len2 := len1 + (outsock_str.length + input_address_string.length + 2)
    let len3 := len2 + (method_str.length + method.length + 2)
    some (lenLoop len3 (argv.drop 2))

/-- The request as `contact_plugin` leaves it before sending: the computed length
and the buffer with its final write offset. -/
structure Frame where
  len : Nat
  buffer : Buf
deriving DecidableEq

/-- Lines 112-143 of `contact_plugin`: the three fixed pairs, with the output
address under `socket_input` and the input address under `socket_output`. -/
def fillHeader (b : Buf) (method input_address_string output_address_string : CStr) :
    Option Buf := do
  let b1 ← b.memcpy insock_str
  let b2 ← b1.memcpy output_address_string
  let b3 ← b2.putc DQUOTE
  let b4 ← b3.putc SPACE
  let b5 ← b4.memcpy outsock_str
  let b6 ← b5.memcpy input_address_string
  let b7 ← b6.putc DQUOTE
  let b8 ← b7.putc SPACE
  let b9 ← b8.memcpy method_str
  let b10 ← b9.memcpy method
  let b11 ← b10.putc DQUOTE
  b11.putc SPACE

/-- Lines 93-184 of `contact_plugin`: compute `len`, allocate, fill. The result is
`none` when the code faults (`argv[1]` absent, or a store outside the buffer). -/
def contact_plugin_encode (argv : List CStr)
    (input_address_string output_address_string : CStr) : Option Frame := do
  let len ← computeLen argv input_address_string output_address_string
  let method ← argv[1]?
  let b0 ← fillHeader (malloc len) method input_address_string output_address_string
  let b1 ← fillLoop b0 (argv.drop 2)
  pure ⟨len, b1⟩

/-- The two bytes sent first (lines 186-198): `htons(len)`, that is `len` modulo
`2^16`, high byte first. -/
def netlen_bytes (len : Nat) : Nat × Nat := (len % 65536 / 256, len % 256)

/-- The length a receiver reads from the two leading bytes of the frame. -/
def announced_len (f : Frame) : Nat :=
  (netlen_bytes f.len).1 * 256 + (netlen_bytes f.len).2

/-- The bytes the encoder stored, in buffer order: cells `0 .. offset-1`. -/
def Frame.written (f : Frame) : List (Option Char) := f.buffer.mem.take f.buffer.offset

/-! ## The fallback: `exec_am_broadcast` -/

/-- A cell of a `char*` array: not yet assigned, `NULL`, or a pointer to a string. -/
inductive Ptr where
  | uninit : Ptr
  | null : Ptr
  | str (s : CStr) : Ptr
deriving DecidableEq

/-- Constant `BROADCAST_RECEIVER` (line 43). -/
def BROADCAST_RECEIVER : CStr := "com.termux/.api.TermuxApiReceiver".toList

/-- Path given to `execv` (line 280), with the default `PREFIX` of line 38. -/
def AM_PATH : CStr := "/data/data/com.termux/files/usr/bin/am".toList

/-- Pointer copy `memcpy(dst + pos, src, n * sizeof(char*))`, the pointers of `src`
one after the other. -/
def copyPtrs (dst : List Ptr) (pos : Nat) : List CStr → List Ptr
  | [] => dst
  | s :: rest => copyPtrs (dst.set pos (Ptr.str s)) (pos + 1) rest

/-- Lines 261-275 of `exec_am_broadcast`: the assignments `child_argv[0]` to
`child_argv[13]`; input and output are reversed for the receiver. -/
def assignFixed (a0 : List Ptr) (input_address_string output_address_string : CStr) :
    List Ptr :=
  let a1 := a0.set 0 (Ptr.str "am".toList)
  let a2 := a1.set 1 (Ptr.str "broadcast".toList)
  let a3 := a2.set 2 (Ptr.str "--user".toList)
  let a4 := a3.set 3 (Ptr.str "0".toList)
  let a5 := a4.set 4 (Ptr.str "-n".toList)
  let a6 := a5.set 5 (Ptr.str BROADCAST_RECEIVER)
  let a7 := a6.set 6 (Ptr.str "--es".toList)
  let a8 := a7.set 7 (Ptr.str "socket_input".toList)
  let a9 := a8.set 8 (Ptr.str output_address_string)
  let a10 := a9.set 9 (Ptr.str "--es".toList)
  let a11 := a10.set 10 (Ptr.str "socket_output".toList)
  let a12 := a11.set 11 (Ptr.str input_address_string)
  let a13 := a12.set 12 (Ptr.str "--es".toList)
  a13.set 13 (Ptr.str "api_method".toList)

/-- Lines 248-278 of `exec_am_broadcast`: the argument vector handed to `execv`,
for a successful `malloc`. `argc` is `argv.length`, at least 1; `argv + 1` is
`argv.drop 1`. -/
def child_argv (argv : List CStr) (input_address_string output_address_string : CStr) :
    List Ptr :=
  let argc := argv.length
  let child_pre_argc := 14
  let child_post_argc := argc - 1
  let child_argc := child_pre_argc + child_post_argc
  let a0 := List.replicate (child_argc + 1) Ptr.uninit
  let a14 := assignFixed a0 input_address_string output_address_string
  let a15 := copyPtrs a14 child_pre_argc ((argv.drop 1).take child_post_argc)
  a15.set child_argc Ptr.null

/-- How a process that never returns ends. -/
inductive Outcome where
  | exit (status : Int) : Outcome
  | execv (path : CStr) (args : List Ptr) : Outcome
  | fault : Outcome
deriving DecidableEq

/-- Function `exec_am_broadcast` (lines 240-285): `exit(1)` when `malloc` returns
`NULL`, else the call of `execv` on the fallback collaborator with `child_argv`
(should `execv` return, lines 282-284 end the process with status 1). -/
def exec_am_broadcast (malloc_ok : Bool) (argv : List CStr)
    (input_address_string output_address_string : CStr) : Outcome :=
  if malloc_ok then
    Outcome.execv AM_PATH (child_argv argv input_address_string output_address_string)
  else
    Outcome.exit 1

/-! ## The fast path: `contact_plugin` -/

/-- What the system answers to `contact_plugin`. The two send loops (lines 191-198
and 203-210) are summarised by whether they were left through `ret == -1`. `reads`
lists the bytes returned by the successive `read(listenfd, readbuffer, 99)`; an
empty entry, or the end of the list, is a `read` that returns zero or a negative
value. `malloc_ok` tells whether the `malloc` of `exec_am_broadcast` succeeds. -/
structure PluginEnv where
  api_level : Option Nat
  socket_ret : Int
  connect_ret : Int
  getsockopt_ret : Int
  peer_uid : Nat
  uid : Nat
  send_len_err : Bool
  send_buf_err : Bool
  reads : List CStr
  malloc_ok : Bool

/-- The loop of lines 218-227, entered with `err = true`. Returns `err` and the
text printed to `stderr` (each result up to its first zero byte). -/
def responseLoop (first : Bool) (err_text : CStr) : List CStr → Bool × CStr
  | [] => (true, err_text)
  | r :: rest =>
    if 0 < r.length then
      if r.length = 1 ∧ r.head? = some NUL ∧ first = true then
        (false, err_text)
      else
        responseLoop false (err_text ++ r.takeWhile (fun c => c != NUL)) rest
    else
      (true, err_text)

/-- Function `contact_plugin` (lines 50-238). `api_level` is `none` when the code is
not built for Android, and `listenfd` then stays `-1`. Every path that does not end
in `exit(0)` reaches the call of `exec_am_broadcast` of line 237. -/
def contact_plugin (E : PluginEnv) (argv : List CStr)
    (input_address_string output_address_string : CStr) : Outcome :=
  let fallback := exec_am_broadcast E.malloc_ok argv input_address_string output_address_string
  let listenfd : Int :=
    match E.api_level with
    | some level => if level < 34 then E.socket_ret else -1
    | none => -1
  if listenfd ≠ -1 then
    if E.connect_ret = 0 then
      if E.getsockopt_ret = 0 ∧ E.peer_uid = E.uid then
        match contact_plugin_encode argv input_address_string output_address_string with
        | none => Outcome.fault
        | some _ =>
          let err1 := E.send_len_err
          let err2 := if !err1 then E.send_buf_err else err1
          let err3 := if !err2 then (responseLoop true [] E.reads).1 else err2
          if !err3 then Outcome.exit 0 else fallback
      else fallback
    else fallback
  else fallback

/-! ## The relay: `transmit_stdin_to_socket` and `transmit_socket_to_stdout` -/

/-- The first control message header of a received message, with the integer that
follows it. -/
structure Cmsg where
  cmsg_len : Nat
  cmsg_type : Int
  data : Int

/-- One result of `recvmsg`: the bytes put into `buffer` (the return value is their
number) and `CMSG_FIRSTHDR(&msg)`, `none` for `NULL`. -/
structure Msg where
  payload : CStr
  cmsg : Option Cmsg

/-- The constants `CMSG_LEN(sizeof(int))` and `SCM_RIGHTS` of the socket headers. -/
structure SockConsts where
  cmsg_len_int : Nat
  scm_rights : Int

/-- Lines 346-351: the descriptor a message carries, if its first control message
has the length of one integer and the type `SCM_RIGHTS`. -/
def carriedFd (K : SockConsts) (m : Msg) : Option Int :=
  match m.cmsg with
  | none => none
  | some c =>
    if c.cmsg_len = K.cmsg_len_int then
      if c.cmsg_type = K.scm_rights then some c.data else none
    else
      none

/-- The result of `transmit_socket_to_stdout`: the returned descriptor and the data
of the successive `write(STDOUT_FILENO, buffer, len)` calls. -/
structure Relay where
  fd : Int
  stdout : List CStr
deriving DecidableEq

/-- The loop of lines 345-355. The script ends where `recvmsg` returns zero or a
negative value. -/
def relayLoop (K : SockConsts) (fd : Int) (out : List CStr) : List Msg → Relay
  | [] => ⟨fd, out⟩
  | m :: rest =>
    if 0 < m.payload.length then
      let fd1 : Int :=
        match carriedFd K m with
        | some d => d
        | none => fd
      let len : Nat :=
        if fd1 ≠ -1 ∧ m.payload.length = 1 ∧ m.payload.head? = some AT_SIGN then 0
        else m.payload.length
      relayLoop K fd1 (out ++ [m.payload.take len]) rest
    else
      ⟨fd, out⟩

/-- Function `transmit_socket_to_stdout` (lines 334-358). -/
def transmit_socket_to_stdout (K : SockConsts) (msgs : List Msg) : Relay :=
  relayLoop K (-1) [] msgs

/-! ## `run_api_command` and `main` -/

/-- What the system answers to `run_api_command`: the two generated addresses, the
return values of the calls of lines 384-420, the environment of the forked child and
the messages the parent receives. -/
structure SysEnv where
  input_addr_str : CStr
  output_addr_str : CStr
  socket_input_ret : Int
  socket_output_ret : Int
  bind_input_ret : Int
  bind_output_ret : Int
  listen_input_ret : Int
  listen_output_ret : Int
  fork_result : Int
  plugin : PluginEnv
  msgs : List Msg

/-- How `run_api_command` ends: `exit`, a returned value, or (in the forked child)
the end of `contact_plugin`. -/
inductive RunResult where
  | exited (status : Int) : RunResult
  | returned (fd : Int) : RunResult
  | child (o : Outcome) : RunResult
deriving DecidableEq

/-- Function `run_api_command` (lines 360-440). -/
def run_api_command (K : SockConsts) (E : SysEnv) (argv : List CStr) : RunResult :=
  if argv.length = 2 ∧ argv[1]? = some "--version".toList then
    RunResult.exited 0
  else if E.socket_input_ret = -1 then
    RunResult.returned (-1)
  else if E.socket_output_ret = -1 then
    RunResult.returned (-1)
  else if E.bind_input_ret = -1 then
    RunResult.returned E.bind_input_ret
  else if E.bind_output_ret = -1 then
    RunResult.returned E.bind_output_ret
  else if E.listen_input_ret = -1 then
    RunResult.returned (-1)
  else if E.listen_output_ret = -1 then
    RunResult.returned (-1)
  else if E.fork_result = -1 then
    RunResult.returned (-1)
  else if E.fork_result = 0 then
    RunResult.child (contact_plugin E.plugin argv E.input_addr_str E.output_addr_str)
  else
    RunResult.returned (transmit_socket_to_stdout K E.msgs).fd

/-- How the program ends: an exit status, the call of `exec_callback(fd)`, or (in
the forked child) the end of `contact_plugin`. -/
inductive MainOutcome where
  | exit (status : Int) : MainOutcome
  | exec_callback (fd : Int) : MainOutcome
  | negotiator (o : Outcome) : MainOutcome
deriving DecidableEq

/-- Function `main` of `termux-api-broadcast.c` (lines 19-26). -/
def main (K : SockConsts) (E : SysEnv) (argv : List CStr) : MainOutcome :=
  match run_api_command K E argv with
  | RunResult.exited status => MainOutcome.exit status
  | RunResult.child o => MainOutcome.negotiator o
  | RunResult.returned fd =>
    if fd ≠ -1 then MainOutcome.exec_callback fd else MainOutcome.exit 0

/-! ## Specification-level descriptions used in the statements -/

/-- The escaped form of a value in the words of the specification: every double
quote is preceded by a backslash, every other character is copied. -/
def quoteEscaped (v : CStr) : CStr :=
  v.flatMap (fun c => if c = DQUOTE then [BACKSLASH, DQUOTE] else [c])

/-- The text that `fillLoop` stores for the residual arguments. -/
def argsText : List CStr → CStr
  | [] => []
  | a :: rest =>
    if isFlagMarker a then
      match rest with
      | [] => a ++ [SPACE]
      | k :: rest2 =>
        match rest2 with
        | [] => a ++ [SPACE] ++ (k ++ [SPACE])
        | v :: rest3 =>
          a ++ [SPACE] ++ (k ++ [SPACE]) ++
            ([DQUOTE] ++ quoteEscaped v ++ ([DQUOTE] ++ [SPACE])) ++ argsText rest3
    else
      a ++ [SPACE] ++ argsText rest

/-- The text that `fillHeader` stores. -/
def headerText (method input_address_string output_address_string : CStr) : CStr :=
  insock_str ++ output_address_string ++ ([DQUOTE] ++ [SPACE]) ++
    (outsock_str ++ input_address_string ++ ([DQUOTE] ++ [SPACE])) ++
    (method_str ++ method ++ ([DQUOTE] ++ [SPACE]))

/-- A buffer whose first cells hold `pre`, stored one after the other from offset
zero, and whose `n` remaining cells are untouched. -/
def Buf.filled (pre : CStr) (n : Nat) : Buf :=
  ⟨pre.map some ++ List.replicate n none, pre.length, List.range pre.length⟩

/-- Number of double quotes of a token, as added to `len` by lines 102-106. -/
def quotes (s : CStr) : Nat := countQuotes 0 s

/-- What one token adds to `len` in the loop of lines 97-107. -/
def tokenLen (a : CStr) : Nat :=
  a.length + 1 + (if isFlagMarker a then 2 else 0) + quotes a

/-- The length of lines 93-107 for `argv = prog :: method :: args`. -/
def requestLen (method inp out : CStr) (args : List CStr) : Nat :=
  (headerText method inp out).length + lenLoop 0 args

/-- The request text for `argv = prog :: method :: args`. -/
def requestText (method inp out : CStr) (args : List CStr) : CStr :=
  headerText method inp out ++ argsText args

/-- The residual tokens are read by `fillLoop` as whole groups: plain tokens, and
markers that have both a key and a value. After such a list the loop index stands
on the next token. -/
def wholeGroups : List CStr → Bool
  | [] => true
  | a :: rest =>
    if isFlagMarker a then
      match rest with
      | [] => false
      | _ :: rest2 =>
        match rest2 with
        | [] => false
        | _ :: rest3 => wholeGroups rest3
    else
      wholeGroups rest

/-- The character at index `i` of `text` is unescaped: the character before it, if
there is one, is not a backslash. -/
def unescapedAt (text : CStr) (i : Nat) : Bool :=
  (text.take i).getLast? != some BACKSLASH

/-- At index `i` the text holds the value as the specification wants it: a double
quote, the escaped value, a double quote, and neither of the two wrapping double
quotes is preceded by a backslash. -/
def wrapsAt (text v : CStr) (i : Nat) : Bool :=
  decide (([DQUOTE] ++ quoteEscaped v ++ [DQUOTE]) <+: text.drop i) &&
    (unescapedAt text i && unescapedAt text (i + 1 + (quoteEscaped v).length))

/-- The text contains the value wrapped in unescaped double-quote characters. -/
def holdsQuoted (text v : CStr) : Bool :=
  (List.range (text.length + 1)).any (wrapsAt text v)

/-- The 14 fixed tokens of the fallback invocation, in order. -/
def fixedTokens (input_address_string output_address_string : CStr) : List CStr :=
  ["am".toList, "broadcast".toList, "--user".toList, "0".toList, "-n".toList,
    "com.termux/.api.TermuxApiReceiver".toList,
    "--es".toList, "socket_input".toList, output_address_string,
    "--es".toList, "socket_output".toList, input_address_string,
    "--es".toList, "api_method".toList]

/-- The environment reaches the response loop of `contact_plugin`: the platform is
below API level 34, the socket is created and connected, the peer has the caller's
user id, and both send loops ended without error. -/
def requestSent (E : PluginEnv) : Prop :=
  (∃ level, E.api_level = some level ∧ level < 34) ∧ E.socket_ret ≠ -1 ∧
    E.connect_ret = 0 ∧ E.getsockopt_ret = 0 ∧ E.peer_uid = E.uid ∧
    E.send_len_err = false ∧ E.send_buf_err = false

/-- An environment in which the fast path is taken and the request is sent; the
response is one zero byte, then the text `E`. -/
def envZeroThenText : PluginEnv :=
  { api_level := some 33, socket_ret := 3, connect_ret := 0, getsockopt_ret := 0,
    peer_uid := 10123, uid := 10123, send_len_err := false, send_buf_err := false,
    reads := [[NUL], ['E']], malloc_ok := true }

/-- Some message of `seen` carried a descriptor: one has been latched. -/
def latched (K : SockConsts) (seen : List Msg) : Bool :=
  seen.any (fun m => (carriedFd K m).isSome)

/-- What a message contributes to standard output in the words of the
specification, `seen` being the messages received before it: nothing when it is the
lone sentinel byte and a descriptor has been latched, its payload otherwise. -/
def forwarded (K : SockConsts) (seen : List Msg) (m : Msg) : CStr :=
  if m.payload = [AT_SIGN] ∧ latched K (seen ++ [m]) = true then [] else m.payload

/-- The bytes the specification expects on standard output for the messages
`msgs` received after `seen`: the contributions in arrival order. -/
def forwardedAll (K : SockConsts) (seen : List Msg) : List Msg → List CStr
  | [] => []
  | m :: rest => forwarded K seen m :: forwardedAll K (seen ++ [m]) rest

/-- The received messages are well formed: `recvmsg` returned a positive number of
bytes for each, and a descriptor installed by the kernel is never negative. -/
def wellFormed (K : SockConsts) (msgs : List Msg) : Prop :=
  ∀ m ∈ msgs, m.payload ≠ [] ∧ ∀ d, carriedFd K m = some d → 0 ≤ d

/-- Constants of a 64-bit Linux: `CMSG_LEN(sizeof(int))` is 20, `SCM_RIGHTS` is 1. -/
def linux64 : SockConsts := ⟨20, 1⟩

/-- A message with payload `x` that carries descriptor 5. -/
def msgWithFd : Msg := ⟨['x'], some ⟨20, 1, 5⟩⟩

/-- A message that is the lone sentinel byte and carries no control message. -/
def msgSentinel : Msg := ⟨[AT_SIGN], none⟩

/-- A message with payload `yz` and no control message. -/
def msgPlain : Msg := ⟨['y', 'z'], none⟩

/-- The child environment of the sample runs; it is not reached when endpoint
creation fails before the fork. -/
def envChild : PluginEnv :=
  { api_level := some 33, socket_ret := 3, connect_ret := 0, getsockopt_ret := 0,
    peer_uid := 10123, uid := 10123, send_len_err := false, send_buf_err := false,
    reads := [[NUL]], malloc_ok := true }

/-- A run in which the first `socket()` of `run_api_command` fails (line 384
returns -1, as when the descriptor table is full). -/
def envSocketFails : SysEnv :=
  { input_addr_str := "in".toList, output_addr_str := "out".toList,
    socket_input_ret := -1, socket_output_ret := 4,
    bind_input_ret := 0, bind_output_ret := 0,
    listen_input_ret := 0, listen_output_ret := 0,
    fork_result := 4321, plugin := envChild, msgs := [] }

/-- Endpoint creation, bind or listen fails (lines 384-418). -/
def resourceError (E : SysEnv) : Prop :=
  E.socket_input_ret = -1 ∨ E.socket_output_ret = -1 ∨ E.bind_input_ret = -1 ∨
    E.bind_output_ret = -1 ∨ E.listen_input_ret = -1 ∨ E.listen_output_ret = -1

/-! # Theorems -/

/-! ## The request text: what the encoder stores -/

theorem memcpy_nil (b : Buf) : b.memcpy [] = some b := rfl

theorem memcpy_cons (b : Buf) (c : Char) (cs : CStr) :
    b.memcpy (c :: cs) = (b.putc c).bind (fun b1 => b1.memcpy cs) := rfl

theorem putc_eq_memcpy (b : Buf) (c : Char) : b.putc c = b.memcpy [c] := by
  cases h : b.putc c <;> simp [memcpy_cons, memcpy_nil, h]

theorem memcpy_append (s t : CStr) (b : Buf) :
    b.memcpy (s ++ t) = (b.memcpy s).bind (fun b1 => b1.memcpy t) := by
  induction s generalizing b with
  | nil => simp [memcpy_nil]
  | cons c cs ih =>
    simp only [List.cons_append, memcpy_cons]
    cases h : b.putc c with
    | none => simp
    | some b1 => simp [ih]

theorem escapeLoop_eq_memcpy (v : CStr) (b : Buf) :
    escapeLoop b v = b.memcpy (quoteEscaped v) := by
  induction v generalizing b with
  | nil => simp [escapeLoop, quoteEscaped, memcpy_nil]
  | cons c cs ih =>
    have hq : quoteEscaped (c :: cs) =
        (if c = DQUOTE then [BACKSLASH] ++ [DQUOTE] else [c]) ++ quoteEscaped cs := by
      simp [quoteEscaped]
    rw [hq]
    by_cases hc : c = DQUOTE
    · simp only [escapeLoop, hc, if_true, memcpy_append, putc_eq_memcpy, ih,
        Option.bind_eq_bind, Option.bind_assoc]
    · simp only [escapeLoop, hc, if_false, memcpy_append, putc_eq_memcpy, ih,
        Option.bind_eq_bind, Option.bind_assoc]

theorem fillLoop_eq_memcpy_aux (n : Nat) :
    ∀ (args : List CStr), args.length ≤ n → ∀ b : Buf,
      fillLoop b args = b.memcpy (argsText args) := by
  induction n with
  | zero =>
    intro args h b
    have : args = [] := List.length_eq_zero.mp (Nat.le_zero.mp h)
    subst this
    simp [fillLoop, argsText, memcpy_nil]
  | succ n ih =>
    intro args h b
    match args, h with
    | [], _ => simp [fillLoop, argsText, memcpy_nil]
    | a :: rest, h =>
      have hrest : rest.length ≤ n := by simpa using h
      by_cases hm : isFlagMarker a = true
      · match rest, hrest with
        | [], _ =>
          simp only [fillLoop, argsText, hm, if_true, memcpy_append, putc_eq_memcpy,
            Option.bind_eq_bind, Option.bind_assoc, Option.bind_some]
        | [k], _ =>
          simp only [fillLoop, argsText, hm, if_true, memcpy_append, putc_eq_memcpy,
            Option.bind_eq_bind, Option.bind_assoc, Option.bind_some]
        | k :: v :: rest3, h3 =>
          have h3 : rest3.length ≤ n := by
            simp at h3; omega
          simp only [fillLoop, argsText, hm, if_true, memcpy_append, putc_eq_memcpy,
            escapeLoop_eq_memcpy, ih rest3 h3,
            Option.bind_eq_bind, Option.bind_assoc, Option.bind_some]
      · have hm2 : isFlagMarker a = false := Bool.eq_false_iff.mpr hm
        have hText : argsText (a :: rest) = a ++ [SPACE] ++ argsText rest := by
          rw [argsText.eq_def]
          simp only [hm2, Bool.false_eq_true, if_false]
        simp only [fillLoop, hText, hm2, Bool.false_eq_true, if_false, memcpy_append,
          putc_eq_memcpy, ih rest hrest, Option.bind_eq_bind, Option.bind_assoc]

theorem fillLoop_eq_memcpy (args : List CStr) (b : Buf) :
    fillLoop b args = b.memcpy (argsText args) :=
  fillLoop_eq_memcpy_aux args.length args (Nat.le_refl _) b

theorem fillHeader_eq_memcpy (b : Buf) (method inp out : CStr) :
    fillHeader b method inp out = b.memcpy (headerText method inp out) := by
  simp only [fillHeader, headerText, memcpy_append, putc_eq_memcpy,
    Option.bind_eq_bind, Option.bind_assoc, Option.bind_some]

theorem malloc_eq_filled (len : Nat) : malloc len = Buf.filled [] len := by
  simp [malloc, Buf.filled]

theorem putc_filled (pre : CStr) (n : Nat) (c : Char) :
    (Buf.filled pre (n + 1)).putc c = some (Buf.filled (pre ++ [c]) n) := by
  have hlt : pre.length < (List.map some pre ++ List.replicate (n + 1) (none : Option Char)).length := by
    simp
  simp only [Buf.putc, Buf.filled, hlt, if_true]
  simp [List.set_append, List.replicate_succ, List.range_succ]

theorem putc_filled_zero (pre : CStr) (c : Char) :
    (Buf.filled pre 0).putc c = none := by
  simp [Buf.putc, Buf.filled]

theorem memcpy_filled (s : CStr) :
    ∀ (pre : CStr) (n : Nat), s.length ≤ n →
      (Buf.filled pre n).memcpy s = some (Buf.filled (pre ++ s) (n - s.length)) := by
  induction s with
  | nil => intro pre n _; simp [memcpy_nil]
  | cons c cs ih =>
    intro pre n h
    obtain ⟨m, rfl⟩ : ∃ m, n = m + 1 := ⟨n - 1, by simp at h; omega⟩
    have hm : cs.length ≤ m := by simpa using h
    rw [memcpy_cons, putc_filled]
    simp [ih (pre ++ [c]) m hm]

theorem countQuotes_shift (s : CStr) : ∀ len, countQuotes len s = len + quotes s := by
  induction s with
  | nil => intro len; simp [countQuotes, quotes]
  | cons c cs ih =>
    intro len
    by_cases hc : c = DQUOTE
    · simp only [countQuotes, quotes, hc, if_true]
      rw [ih (len + 1), ih (0 + 1)]; omega
    · simp only [countQuotes, quotes, hc, if_false]
      rw [ih len]; rfl

theorem quoteEscaped_length (s : CStr) : (quoteEscaped s).length = s.length + quotes s := by
  induction s with
  | nil => simp [quoteEscaped, quotes, countQuotes]
  | cons c cs ih =>
    have hq : quoteEscaped (c :: cs) =
        (if c = DQUOTE then [BACKSLASH, DQUOTE] else [c]) ++ quoteEscaped cs := by
      simp [quoteEscaped]
    by_cases hc : c = DQUOTE
    · rw [hq]
      simp only [hc, if_true, List.length_append, ih, quotes, countQuotes]
      rw [countQuotes_shift cs (0 + 1)]
      simp [quotes]; omega
    · rw [hq]
      simp only [hc, if_false, List.length_append, ih, quotes, countQuotes]
      simp; omega

theorem tokenLen_marker (a : CStr) (hm : isFlagMarker a = true) :
    tokenLen a = a.length + 3 + quotes a := by
  simp only [tokenLen, hm, if_true]

theorem tokenLen_ge (a : CStr) : a.length + 1 + quotes a ≤ tokenLen a := by
  simp only [tokenLen]; omega

theorem lenLoop_nil (len : Nat) : lenLoop len [] = len := rfl

theorem lenLoop_cons (len : Nat) (a : CStr) (rest : List CStr) :
    lenLoop len (a :: rest) = lenLoop (len + tokenLen a) rest := by
  simp only [lenLoop, tokenLen]
  rw [countQuotes_shift]
  congr 1
  split <;> omega

theorem lenLoop_shift (args : List CStr) : ∀ len, lenLoop len args = len + lenLoop 0 args := by
  induction args with
  | nil => intro len; simp [lenLoop]
  | cons a rest ih =>
    intro len
    rw [lenLoop_cons, lenLoop_cons, ih (len + tokenLen a), ih (0 + tokenLen a)]; omega

theorem argsText_length_le_aux (n : Nat) :
    ∀ (args : List CStr), args.length ≤ n → (argsText args).length ≤ lenLoop 0 args := by
  induction n with
  | zero =>
    intro args h
    have : args = [] := List.length_eq_zero.mp (Nat.le_zero.mp h)
    subst this
    simp [argsText]
  | succ n ih =>
    intro args h
    match args, h with
    | [], _ => simp [argsText]
    | a :: rest, h =>
      have hrest : rest.length ≤ n := by simpa using h
      by_cases hm : isFlagMarker a = true
      · have ha := tokenLen_marker a hm
        match rest, hrest with
        | [], _ =>
          simp only [argsText, hm, if_true, lenLoop_cons, lenLoop_nil,
            List.length_append, List.length_singleton]
          omega
        | [k], _ =>
          have hk := tokenLen_ge k
          simp only [argsText, hm, if_true, lenLoop_cons, lenLoop_nil,
            List.length_append, List.length_singleton]
          omega
        | k :: v :: rest3, h3 =>
          have h3 : rest3.length ≤ n := by
            simp at h3; omega
          have h4 := ih rest3 h3
          have hk := tokenLen_ge k
          have hv := tokenLen_ge v
          simp only [argsText, hm, if_true, lenLoop_cons, List.length_append,
            List.length_singleton, quoteEscaped_length]
          rw [lenLoop_shift]
          omega
      · have hm2 : isFlagMarker a = false := Bool.eq_false_iff.mpr hm
        have hText : argsText (a :: rest) = a ++ [SPACE] ++ argsText rest := by
          rw [argsText.eq_def]
          simp only [hm2, Bool.false_eq_true, if_false]
        have h4 := ih rest hrest
        have ha := tokenLen_ge a
        rw [hText, lenLoop_cons, lenLoop_shift]
        simp only [List.length_append, List.length_singleton]
        omega

theorem argsText_length_le (args : List CStr) : (argsText args).length ≤ lenLoop 0 args :=
  argsText_length_le_aux args.length args (Nat.le_refl _)

theorem computeLen_eq (prog method inp out : CStr) (args : List CStr) :
    computeLen (prog :: method :: args) inp out = some (requestLen method inp out args) := by
  simp only [computeLen, requestLen, headerText, List.length_append, List.length_singleton]
  simp only [List.getElem?_cons_succ, List.getElem?_cons_zero, List.drop_succ_cons, List.drop_zero]
  rw [lenLoop_shift]
  congr 1
  omega

theorem requestText_length_le (method inp out : CStr) (args : List CStr) :
    (requestText method inp out args).length ≤ requestLen method inp out args := by
  have := argsText_length_le args
  simp only [requestText, requestLen, List.length_append]
  omega

/-- The encoder never faults on an argument vector with a method name: it returns
the computed length and a buffer holding the request text followed by the cells it
never stored to. -/
theorem contact_plugin_encode_eq (prog method inp out : CStr) (args : List CStr) :
    contact_plugin_encode (prog :: method :: args) inp out =
      some ⟨requestLen method inp out args,
        Buf.filled (requestText method inp out args)
          (requestLen method inp out args - (requestText method inp out args).length)⟩ := by
  have hle := requestText_length_le method inp out args
  have hh : (headerText method inp out).length ≤ requestLen method inp out args := by
    simp only [requestLen]; omega
  have ha : (argsText args).length ≤
      requestLen method inp out args - (headerText method inp out).length := by
    simp only [requestText, List.length_append] at hle; omega
  simp only [contact_plugin_encode, computeLen_eq, fillHeader_eq_memcpy, fillLoop_eq_memcpy,
    malloc_eq_filled, Option.bind_eq_bind, Option.some_bind, Option.pure_def,
    List.getElem?_cons_succ, List.getElem?_cons_zero, List.drop_succ_cons, List.drop_zero]
  rw [memcpy_filled _ _ _ hh]
  simp only [Option.some_bind, List.nil_append]
  rw [memcpy_filled _ _ _ ha]
  simp only [Option.some_bind, requestText, List.length_append, Nat.sub_sub]

theorem argsText_append_aux (n : Nat) :
    ∀ (pre : List CStr), pre.length ≤ n → wholeGroups pre = true →
      ∀ rest, argsText (pre ++ rest) = argsText pre ++ argsText rest := by
  induction n with
  | zero =>
    intro pre h _ rest
    have : pre = [] := List.length_eq_zero.mp (Nat.le_zero.mp h)
    subst this
    simp [argsText]
  | succ n ih =>
    intro pre h hw rest
    match pre, h, hw with
    | [], _, _ => simp [argsText]
    | a :: tl, h, hw =>
      have htl : tl.length ≤ n := by simpa using h
      by_cases hm : isFlagMarker a = true
      · match tl, htl, hw with
        | [], _, hw => simp [wholeGroups, hm] at hw
        | [k], _, hw => simp [wholeGroups, hm] at hw
        | k :: v :: tl3, h3, hw =>
          have h3 : tl3.length ≤ n := by
            simp at h3; omega
          have hw3 : wholeGroups tl3 = true := by
            simpa [wholeGroups, hm] using hw
          have e : (a :: k :: v :: tl3) ++ rest = a :: k :: v :: (tl3 ++ rest) := rfl
          rw [e]
          simp only [argsText, hm, if_true, ih tl3 h3 hw3 rest, List.append_assoc]
      · have hm2 : isFlagMarker a = false := Bool.eq_false_iff.mpr hm
        have hText : ∀ l, argsText (a :: l) = a ++ [SPACE] ++ argsText l := by
          intro l
          rw [argsText.eq_def]
          simp only [hm2, Bool.false_eq_true, if_false]
        have hw2 : wholeGroups tl = true := by
          rw [wholeGroups.eq_def] at hw
          simpa [hm2] using hw
        have e : (a :: tl) ++ rest = a :: (tl ++ rest) := rfl
        rw [e]
        simp only [hText, ih tl htl hw2 rest, List.append_assoc]

theorem argsText_append (pre rest : List CStr) (hw : wholeGroups pre = true) :
    argsText (pre ++ rest) = argsText pre ++ argsText rest :=
  argsText_append_aux pre.length pre (Nat.le_refl _) hw rest

theorem quoteEscaped_append (v w : CStr) :
    quoteEscaped (v ++ w) = quoteEscaped v ++ quoteEscaped w := by
  simp [quoteEscaped]

theorem getLast_snoc (l : CStr) (c : Char) : (l ++ [c]).getLast? = some c := by
  simp

theorem getLast_quoteEscaped (v : CStr) (hv : v.getLast? ≠ some BACKSLASH) (before : CStr) :
    (before ++ [DQUOTE] ++ quoteEscaped v).getLast? ≠ some BACKSLASH := by
  rcases List.eq_nil_or_concat v with rfl | ⟨w, c, rfl⟩
  · have e : quoteEscaped [] = [] := rfl
    rw [e, List.append_nil, getLast_snoc]
    decide
  · rw [List.concat_eq_append] at hv ⊢
    have hc : c ≠ BACKSLASH := by
      intro h
      apply hv
      rw [getLast_snoc, h]
    rw [quoteEscaped_append]
    by_cases hq : c = DQUOTE
    · have e : quoteEscaped [c] = [BACKSLASH] ++ [DQUOTE] := by
        simp [quoteEscaped, hq]
      rw [e, ← List.append_assoc, ← List.append_assoc, getLast_snoc]
      decide
    · have e : quoteEscaped [c] = [c] := by
        simp [quoteEscaped, hq]
      rw [e, ← List.append_assoc, getLast_snoc]
      intro h
      exact hc (Option.some.inj h)

theorem holdsQuoted_of_split (before after v : CStr)
    (h1 : before.getLast? ≠ some BACKSLASH)
    (h2 : (before ++ [DQUOTE] ++ quoteEscaped v).getLast? ≠ some BACKSLASH) :
    holdsQuoted (before ++ ([DQUOTE] ++ quoteEscaped v ++ [DQUOTE]) ++ after) v = true := by
  simp only [holdsQuoted, List.any_eq_true, List.mem_range]
  refine ⟨before.length, ?_, ?_⟩
  · simp only [List.length_append]; omega
  · have hdrop : List.drop before.length
        (before ++ ([DQUOTE] ++ quoteEscaped v ++ [DQUOTE]) ++ after) =
        ([DQUOTE] ++ quoteEscaped v ++ [DQUOTE]) ++ after := by
      rw [List.append_assoc, List.drop_left]
    have htake1 : List.take before.length
        (before ++ ([DQUOTE] ++ quoteEscaped v ++ [DQUOTE]) ++ after) = before := by
      rw [List.append_assoc, List.take_left]
    have hlen : before.length + 1 + (quoteEscaped v).length =
        (before ++ [DQUOTE] ++ quoteEscaped v).length := by
      simp only [List.length_append, List.length_singleton]
    have hre : before ++ ([DQUOTE] ++ quoteEscaped v ++ [DQUOTE]) ++ after =
        (before ++ [DQUOTE] ++ quoteEscaped v) ++ ([DQUOTE] ++ after) := by
      simp only [List.append_assoc]
    have htake2 : List.take (before.length + 1 + (quoteEscaped v).length)
        (before ++ ([DQUOTE] ++ quoteEscaped v ++ [DQUOTE]) ++ after) =
        before ++ [DQUOTE] ++ quoteEscaped v := by
      rw [hlen, hre, List.take_left]
    simp only [wrapsAt, unescapedAt, hdrop, htake1, htake2, Bool.and_eq_true,
      decide_eq_true_eq, bne_iff_ne, ne_eq]
    exact ⟨List.prefix_append _ _, h1, h2⟩

theorem written_filled (len : Nat) (text : CStr) (n : Nat) :
    Frame.written ⟨len, Buf.filled text n⟩ = text.map some := by
  simp [Frame.written, Buf.filled]

/-- C10: for every pair of addresses, method name and residual argument list, the
encoder of `contact_plugin` runs to its end without a store outside the buffer: the
buffer has exactly the `len` cells computed beforehand, every store it executes is
made at an offset strictly below `len`, and the final offset is at most `len`. -/
theorem contact_plugin_offset_within_len (prog method inp out : CStr) (args : List CStr) :
    ∃ f : Frame, contact_plugin_encode (prog :: method :: args) inp out = some f ∧
      computeLen (prog :: method :: args) inp out = some f.len ∧
      f.buffer.mem.length = f.len ∧
      (∀ o ∈ f.buffer.stores, o < f.len) ∧
      f.buffer.offset ≤ f.len := by
  have hle := requestText_length_le method inp out args
  refine ⟨_, contact_plugin_encode_eq prog method inp out args, computeLen_eq .., ?_, ?_, ?_⟩
  · simp only [Buf.filled, List.length_append, List.length_map, List.length_replicate]
    omega
  · intro o ho
    simp only [Buf.filled, List.mem_range] at ho
    show o < requestLen method inp out args
    omega
  · simpa [Buf.filled] using hle

/-- C1 (amended): when the tokens before a flag marker are read by the encoder as
whole groups (so that the marker is met in marker position), the marker is followed
by a key token and a value token, and the value does not end in a backslash, the
request built by `contact_plugin` contains that value wrapped in unescaped
double-quote characters (neither is preceded by a backslash), with every double
quote of the value preceded by a backslash and every other character copied
unchanged, in order (`quoteEscaped`); the wrapped value stands after the marker, the
key and a space, and a space follows it. -/
theorem contact_plugin_quotes_value (prog method inp out : CStr) (pre post : List CStr)
    (m k v : CStr) (hpre : wholeGroups pre = true) (hm : isFlagMarker m = true)
    (hv : v.getLast? ≠ some BACKSLASH) :
    ∃ (f : Frame) (text : CStr),
      contact_plugin_encode (prog :: method :: (pre ++ m :: k :: v :: post)) inp out = some f ∧
      f.written = text.map some ∧
      holdsQuoted text v = true ∧
      ∃ before after : CStr,
        text = before ++ (m ++ [SPACE]) ++ (k ++ [SPACE]) ++
          ([DQUOTE] ++ quoteEscaped v ++ [DQUOTE]) ++ SPACE :: after := by
  have htext : requestText method inp out (pre ++ m :: k :: v :: post) =
      (headerText method inp out ++ argsText pre ++ (m ++ [SPACE]) ++ (k ++ [SPACE])) ++
        ([DQUOTE] ++ quoteEscaped v ++ [DQUOTE]) ++ SPACE :: argsText post := by
    rw [requestText, argsText_append pre _ hpre]
    simp only [argsText, hm, if_true, List.append_assoc, List.singleton_append,
      List.cons_append, List.nil_append]
  have h1 : (headerText method inp out ++ argsText pre ++ (m ++ [SPACE]) ++
      (k ++ [SPACE])).getLast? ≠ some BACKSLASH := by
    rw [← List.append_assoc, getLast_snoc]
    decide
  refine ⟨_, requestText method inp out (pre ++ m :: k :: v :: post),
    contact_plugin_encode_eq prog method inp out _, written_filled _ _ _, ?_, ?_⟩
  · rw [htext]
    exact holdsQuoted_of_split _ _ v h1 (getLast_quoteEscaped v hv _)
  · exact ⟨headerText method inp out ++ argsText pre, argsText post, htext⟩

/-- C1 witness: the plain token `a`, then `--es k x"y`. -/
theorem contact_plugin_quotes_value_witness :
    wholeGroups ["a".toList] = true ∧ isFlagMarker "--es".toList = true ∧
    (['x', DQUOTE, 'y'] : CStr).getLast? ≠ some BACKSLASH ∧
    ∃ (f : Frame) (text : CStr),
      contact_plugin_encode ("termux-api".toList :: "Toast".toList ::
        (["a".toList] ++ "--es".toList :: "k".toList :: ['x', DQUOTE, 'y'] :: [])) [] [] = some f ∧
      f.written = text.map some ∧
      holdsQuoted text ['x', DQUOTE, 'y'] = true ∧
      ∃ before after : CStr,
        text = before ++ ("--es".toList ++ [SPACE]) ++ ("k".toList ++ [SPACE]) ++
          ([DQUOTE] ++ quoteEscaped ['x', DQUOTE, 'y'] ++ [DQUOTE]) ++ SPACE :: after :=
  ⟨by decide, by decide, by decide,
    contact_plugin_quotes_value "termux-api".toList "Toast".toList [] [] ["a".toList] []
      "--es".toList "k".toList ['x', DQUOTE, 'y'] (by decide) (by decide) (by decide)⟩

set_option maxRecDepth 40000 in
/-- C1 counterexample, at two inputs. First, `--es k` followed by the value `a`
backslash: the encoder copies the backslash unchanged, the request ends in
`--es k "a` backslash `" `, and the closing double quote is preceded by a backslash.
Second, `--es --es k v`: the second `--es` is a flag marker followed by the key `k`
and the value `v`, but the encoder has taken it as the key of the first marker; the
request ends in `--es --es "k" v ` and holds `v` nowhere between double quotes. -/
theorem contact_plugin_quotes_value_counterexample :
    (isFlagMarker "--es".toList = true ∧
      ∃ (f : Frame) (text : CStr),
        contact_plugin_encode ("termux-api".toList :: "Toast".toList ::
          ([] ++ "--es".toList :: "k".toList :: ['a', BACKSLASH] :: []))
          "in".toList "out".toList = some f ∧
        f.written = text.map some ∧ holdsQuoted text ['a', BACKSLASH] = false) ∧
    (isFlagMarker "--es".toList = true ∧
      ∃ (f : Frame) (text : CStr),
        contact_plugin_encode ("termux-api".toList :: "Toast".toList ::
          (["--es".toList] ++ "--es".toList :: "k".toList :: "v".toList :: []))
          "in".toList "out".toList = some f ∧
        f.written = text.map some ∧ holdsQuoted text "v".toList = false) := by
  refine ⟨⟨by decide, _, _, contact_plugin_encode_eq _ _ _ _ _, written_filled _ _ _, ?_⟩,
    ⟨by decide, _, _, contact_plugin_encode_eq _ _ _ _ _, written_filled _ _ _, ?_⟩⟩
  · decide
  · decide

/-- C2, evaluated: for `termux-api Toast a"b` with addresses `in` and `out` the
encoder computes `len = 77`, the two leading bytes of the frame announce 77, and the
final write offset is 76; the last of the 77 cells that are sent was never stored to. -/
theorem contact_plugin_len_exceeds_offset :
    (contact_plugin_encode
        ["termux-api".toList, "Toast".toList, ['a', DQUOTE, 'b']] "in".toList "out".toList).map
      (fun f => (f.len, announced_len f, f.buffer.offset, f.buffer.mem.getLast?)) =
      some (77, 77, 76, some none) := by
  rw [contact_plugin_encode_eq]
  decide

/-! ## The argument vector of the fallback -/

theorem copyPtrs_fill (src : List CStr) :
    ∀ (pre : List Ptr) (n : Nat), src.length ≤ n →
      copyPtrs (pre ++ List.replicate n Ptr.uninit) pre.length src =
        pre ++ src.map Ptr.str ++ List.replicate (n - src.length) Ptr.uninit := by
  induction src with
  | nil => intro pre n _; simp [copyPtrs]
  | cons s rest ih =>
    intro pre n h
    obtain ⟨m, rfl⟩ : ∃ m, n = m + 1 := ⟨n - 1, by simp at h; omega⟩
    have hm : rest.length ≤ m := by simpa using h
    have hset : (pre ++ List.replicate (m + 1) Ptr.uninit).set pre.length (Ptr.str s) =
        (pre ++ [Ptr.str s]) ++ List.replicate m Ptr.uninit := by
      simp [List.set_append, List.replicate_succ]
    have hlen : pre.length + 1 = (pre ++ [Ptr.str s]).length := by simp
    rw [copyPtrs, hset, hlen, ih (pre ++ [Ptr.str s]) m hm]
    simp

theorem child_argv_eq (prog : CStr) (tl : List CStr) (inp out : CStr) :
    child_argv (prog :: tl) inp out =
      (fixedTokens inp out ++ tl).map Ptr.str ++ [Ptr.null] := by
  have hrep : List.replicate (14 + tl.length + 1) Ptr.uninit =
      List.replicate 14 Ptr.uninit ++ List.replicate (tl.length + 1) Ptr.uninit := by
    rw [Nat.add_assoc, List.replicate_add]
  have htake : List.take tl.length tl = tl := List.take_length tl
  simp only [child_argv, List.length_cons, Nat.add_sub_cancel, List.drop_succ_cons,
    List.drop_zero, hrep, htake]
  have hfix : ∀ R : List Ptr, assignFixed (List.replicate 14 Ptr.uninit ++ R) inp out =
      (fixedTokens inp out).map Ptr.str ++ R := by
    intro R; rfl
  rw [hfix]
  have hlen : 14 = ((fixedTokens inp out).map Ptr.str).length := rfl
  have h1 : tl.length ≤ tl.length + 1 := Nat.le_succ _
  have hcopy := copyPtrs_fill tl ((fixedTokens inp out).map Ptr.str) (tl.length + 1) h1
  rw [← hlen] at hcopy
  rw [hcopy]
  have hidx : 14 + tl.length =
      ((fixedTokens inp out).map Ptr.str ++ tl.map Ptr.str).length := by
    rw [List.length_append, ← hlen, List.length_map]
  rw [hidx]
  simp [List.set_append, List.replicate_succ]

/-- C5: for every invocation with `argc >= 2`, the argument vector that
`exec_am_broadcast` hands to `execv` is the 14 fixed tokens (with the output address
under `socket_input` and the input address under `socket_output`), followed by
`argv[1..argc-1]` unchanged and in order, followed by `NULL`: `argc + 13` arguments. -/
theorem exec_am_broadcast_argv (argv : List CStr) (inp out : CStr) (hargc : 2 ≤ argv.length) :
    exec_am_broadcast true argv inp out =
      Outcome.execv AM_PATH
        ((["am".toList, "broadcast".toList, "--user".toList, "0".toList, "-n".toList,
            "com.termux/.api.TermuxApiReceiver".toList,
            "--es".toList, "socket_input".toList, out,
            "--es".toList, "socket_output".toList, inp,
            "--es".toList, "api_method".toList] ++ argv.drop 1).map Ptr.str ++ [Ptr.null]) ∧
    (fixedTokens inp out ++ argv.drop 1).length = argv.length + 13 := by
  match argv, hargc with
  | prog :: tl, h =>
    constructor
    · simp only [exec_am_broadcast, if_true, child_argv_eq, List.drop_succ_cons, List.drop_zero]
      rfl
    · simp [fixedTokens]

/-- C5 witness: `termux-api Toast -e text hi`. -/
theorem exec_am_broadcast_argv_witness :
    2 ≤ ["termux-api".toList, "Toast".toList, "-e".toList, "text".toList, "hi".toList].length ∧
    exec_am_broadcast true
        ["termux-api".toList, "Toast".toList, "-e".toList, "text".toList, "hi".toList]
        "IN".toList "OUT".toList =
      Outcome.execv AM_PATH
        ((["am".toList, "broadcast".toList, "--user".toList, "0".toList, "-n".toList,
            "com.termux/.api.TermuxApiReceiver".toList,
            "--es".toList, "socket_input".toList, "OUT".toList,
            "--es".toList, "socket_output".toList, "IN".toList,
            "--es".toList, "api_method".toList] ++
          List.drop 1 ["termux-api".toList, "Toast".toList, "-e".toList, "text".toList,
            "hi".toList]).map Ptr.str ++ [Ptr.null]) ∧
    (fixedTokens "IN".toList "OUT".toList ++
      List.drop 1 ["termux-api".toList, "Toast".toList, "-e".toList, "text".toList,
        "hi".toList]).length =
      ["termux-api".toList, "Toast".toList, "-e".toList, "text".toList, "hi".toList].length + 13 :=
  ⟨by decide, exec_am_broadcast_argv _ _ _ (by decide)⟩

/-! ## The response of the fast path, and the standard-input relay -/

theorem responseLoop_not_first (rest : List CStr) :
    ∀ text, (responseLoop false text rest).1 = true := by
  induction rest with
  | nil => intro text; rfl
  | cons r rest ih =>
    intro text
    by_cases hr : 0 < r.length
    · simp [responseLoop, hr, ih]
    · simp [responseLoop, hr]

theorem responseLoop_err (reads : List CStr) :
    (responseLoop true [] reads).1 = false ↔ reads.head? = some [NUL] := by
  match reads with
  | [] => simp [responseLoop]
  | r :: rest =>
    by_cases h1 : r = [NUL]
    · subst h1
      simp [responseLoop]
    · have hne : ¬ (r.length = 1 ∧ r.head? = some NUL) := by
        rintro ⟨hl, hh⟩
        match r, hl, hh with
        | [c], _, hh =>
          simp at hh
          exact h1 (by rw [hh])
      by_cases hr : 0 < r.length
      · simp [responseLoop, hr, hne, h1, responseLoop_not_first]
      · simp [responseLoop, hr, h1]

theorem exec_am_broadcast_ne_exit_zero (ok : Bool) (argv : List CStr) (inp out : CStr) :
    exec_am_broadcast ok argv inp out ≠ Outcome.exit 0 := by
  cases ok <;> simp [exec_am_broadcast]

theorem contact_plugin_requestSent (E : PluginEnv) (prog method inp out : CStr)
    (args : List CStr) (hsent : requestSent E) :
    contact_plugin E (prog :: method :: args) inp out =
      if (responseLoop true [] E.reads).1 = false then Outcome.exit 0
      else exec_am_broadcast E.malloc_ok (prog :: method :: args) inp out := by
  obtain ⟨⟨level, hl, hlt⟩, hs, hc, hg, hu, h1, h2⟩ := hsent
  simp only [contact_plugin, hl, hlt, if_true, hs, hc, hg, hu, h1, h2,
    contact_plugin_encode_eq, ne_eq, not_false_eq_true, and_self, Bool.not_false]
  cases (responseLoop true [] E.reads).1 <;> simp

/-- C6 (amended): once the request is sent, `contact_plugin` ends with `exit(0)`,
without calling the fallback collaborator, if and only if the first read of the
response returns exactly one byte and that byte is zero; what the peer sends after
it is never read. For every other response, the empty one included, it calls
`exec_am_broadcast`. -/
theorem contact_plugin_delivered_iff (E : PluginEnv) (prog method inp out : CStr)
    (args : List CStr) (hsent : requestSent E) :
    (contact_plugin E (prog :: method :: args) inp out = Outcome.exit 0 ↔
      E.reads.head? = some [NUL]) ∧
    (E.reads.head? ≠ some [NUL] →
      contact_plugin E (prog :: method :: args) inp out =
        exec_am_broadcast E.malloc_ok (prog :: method :: args) inp out) := by
  have key := responseLoop_err E.reads
  rw [contact_plugin_requestSent E prog method inp out args hsent]
  by_cases hz : (responseLoop true [] E.reads).1 = false
  · have hhead := key.mp hz
    rw [if_pos hz]
    exact ⟨⟨fun _ => hhead, fun _ => rfl⟩, fun h => absurd hhead h⟩
  · have hhead : ¬ E.reads.head? = some [NUL] := fun h => hz (key.mpr h)
    have hne := exec_am_broadcast_ne_exit_zero E.malloc_ok (prog :: method :: args) inp out
    rw [if_neg hz]
    exact ⟨⟨fun h => absurd h hne, fun h => absurd h hhead⟩, fun _ => rfl⟩

theorem requestSent_envZeroThenText : requestSent envZeroThenText :=
  ⟨⟨33, rfl, by decide⟩, by decide, rfl, rfl, rfl, rfl, rfl⟩

/-- C6 witness: the response of `envZeroThenText`. -/
theorem contact_plugin_delivered_iff_witness :
    requestSent envZeroThenText ∧
    (contact_plugin envZeroThenText ("termux-api".toList :: "Toast".toList :: []) [] [] =
        Outcome.exit 0 ↔ envZeroThenText.reads.head? = some [NUL]) ∧
    (envZeroThenText.reads.head? ≠ some [NUL] →
      contact_plugin envZeroThenText ("termux-api".toList :: "Toast".toList :: []) [] [] =
        exec_am_broadcast envZeroThenText.malloc_ok
          ("termux-api".toList :: "Toast".toList :: []) [] []) :=
  ⟨requestSent_envZeroThenText,
    contact_plugin_delivered_iff envZeroThenText "termux-api".toList "Toast".toList [] [] []
      requestSent_envZeroThenText⟩

/-- C6 counterexample: the response is a zero byte followed by the byte `E`, so the
whole response is not exactly one zero byte, and `contact_plugin` still ends with
`exit(0)` without calling the fallback collaborator. -/
theorem contact_plugin_delivered_counterexample :
    requestSent envZeroThenText ∧
    envZeroThenText.reads.flatten = [NUL, 'E'] ∧
    envZeroThenText.reads.flatten ≠ [NUL] ∧
    contact_plugin envZeroThenText ["termux-api".toList, "Toast".toList]
      "in".toList "out".toList = Outcome.exit 0 := by
  refine ⟨requestSent_envZeroThenText, by decide, by decide, ?_⟩
  rw [contact_plugin_requestSent _ _ _ _ _ _ requestSent_envZeroThenText]
  decide

theorem latched_snoc (K : SockConsts) (seen : List Msg) (m : Msg) :
    latched K (seen ++ [m]) = (latched K seen || (carriedFd K m).isSome) := by
  simp [latched]

theorem sentinel_test (p : CStr) :
    (p.length = 1 ∧ p.head? = some AT_SIGN) ↔ p = [AT_SIGN] := by
  constructor
  · rintro ⟨hl, hh⟩
    match p, hl, hh with
    | [c], _, hh =>
      simp at hh
      rw [hh]
  · intro h; subst h; simp

theorem relayLoop_spec (K : SockConsts) (msgs : List Msg) :
    ∀ (seen : List Msg) (fd : Int) (out : List CStr),
      wellFormed K msgs → (fd ≠ -1 ↔ latched K seen = true) →
      (relayLoop K fd out msgs).stdout = out ++ forwardedAll K seen msgs ∧
      ((relayLoop K fd out msgs).fd ≠ -1 ↔ latched K (seen ++ msgs) = true) ∧
      (relayLoop K fd out msgs).fd = ((msgs.filterMap (carriedFd K)).getLast?).getD fd := by
  induction msgs with
  | nil =>
    intro seen fd out _ hfd
    simp [relayLoop, forwardedAll, hfd]
  | cons m rest ih =>
    intro seen fd out hwf hfd
    have hm := hwf m (List.mem_cons_self _ _)
    have hrest : wellFormed K rest := fun x hx => hwf x (List.mem_cons_of_mem _ hx)
    have hpos : 0 < m.payload.length := List.length_pos.mpr hm.1
    cases hc : carriedFd K m with
    | none =>
      have hl : latched K (seen ++ [m]) = latched K seen := by
        rw [latched_snoc, hc]; simp
      have hinv : fd ≠ -1 ↔ latched K (seen ++ [m]) = true := by rw [hl]; exact hfd
      have step := ih (seen ++ [m]) fd
        (out ++ [m.payload.take (if fd ≠ -1 ∧ m.payload.length = 1 ∧
          m.payload.head? = some AT_SIGN then 0 else m.payload.length)]) hrest hinv
      have hfw : m.payload.take (if fd ≠ -1 ∧ m.payload.length = 1 ∧
          m.payload.head? = some AT_SIGN then 0 else m.payload.length) = forwarded K seen m := by
        unfold forwarded
        by_cases hs : m.payload = [AT_SIGN]
        · by_cases hf : fd = -1
          · have : ¬ latched K (seen ++ [m]) = true := fun h => (hinv.mpr h) hf
            simp [hs, hf, this]
          · have : latched K (seen ++ [m]) = true := hinv.mp hf
            simp [hs, hf, this]
        · have hs2 : ¬ (m.payload.length = 1 ∧ m.payload.head? = some AT_SIGN) :=
            fun h => hs ((sentinel_test _).mp h)
          have hs3 : ¬ (fd ≠ -1 ∧ m.payload.length = 1 ∧ m.payload.head? = some AT_SIGN) :=
            fun h => hs2 h.2
          rw [if_neg hs3]
          simp [hs]
      rw [hfw] at step
      simp only [relayLoop, hpos, if_true, hc, forwardedAll, List.filterMap_cons]
      rw [hfw]
      refine ⟨?_, ?_, step.2.2⟩
      · rw [step.1]; simp
      · rw [step.2.1]; simp
    | some d =>
      have hd : (0 : Int) ≤ d := hm.2 d hc
      have hd1 : d ≠ -1 := by omega
      have hl : latched K (seen ++ [m]) = true := by
        rw [latched_snoc, hc]; simp
      have hinv : d ≠ -1 ↔ latched K (seen ++ [m]) = true := ⟨fun _ => hl, fun _ => hd1⟩
      have step := ih (seen ++ [m]) d
        (out ++ [m.payload.take (if d ≠ -1 ∧ m.payload.length = 1 ∧
          m.payload.head? = some AT_SIGN then 0 else m.payload.length)]) hrest hinv
      have hfw : m.payload.take (if d ≠ -1 ∧ m.payload.length = 1 ∧
          m.payload.head? = some AT_SIGN then 0 else m.payload.length) = forwarded K seen m := by
        unfold forwarded
        by_cases hs : m.payload = [AT_SIGN]
        · simp [hs, hd1, hl]
        · have hs2 : ¬ (m.payload.length = 1 ∧ m.payload.head? = some AT_SIGN) :=
            fun h => hs ((sentinel_test _).mp h)
          have hs3 : ¬ (d ≠ -1 ∧ m.payload.length = 1 ∧ m.payload.head? = some AT_SIGN) :=
            fun h => hs2 h.2
          rw [if_neg hs3]
          simp [hs]
      rw [hfw] at step
      simp only [relayLoop, hpos, if_true, hc, forwardedAll, List.filterMap_cons]
      rw [hfw]
      refine ⟨?_, ?_, ?_⟩
      · rw [step.1]; simp
      · rw [step.2.1]; simp
      · rw [step.2.2]
        cases hL : List.filterMap (carriedFd K) rest with
        | nil => simp
        | cons y ys =>
          simp only [List.getLast?_cons_cons]
          rw [List.getLast?_eq_getLast _ (List.cons_ne_nil y ys)]
          rfl

theorem forwardedAll_length (K : SockConsts) (msgs : List Msg) :
    ∀ seen, (forwardedAll K seen msgs).length = msgs.length := by
  induction msgs with
  | nil => intro seen; rfl
  | cons m rest ih => intro seen; simp [forwardedAll, ih]

theorem forwardedAll_append (K : SockConsts) (pre : List Msg) :
    ∀ (seen rest : List Msg),
      forwardedAll K seen (pre ++ rest) =
        forwardedAll K seen pre ++ forwardedAll K (seen ++ pre) rest := by
  induction pre with
  | nil => intro seen rest; simp [forwardedAll]
  | cons m tl ih =>
    intro seen rest
    simp [forwardedAll, ih]

/-- C3: for every sequence of messages received by `transmit_socket_to_stdout`
before the peer closes, the bytes written to standard output are the concatenation,
in arrival order, of the payloads of all messages, except that a message whose
payload is exactly the sentinel byte, received when a descriptor has been latched
(by that message or an earlier one), contributes no byte. -/
theorem transmit_socket_to_stdout_bytes (K : SockConsts) (msgs : List Msg)
    (hwf : wellFormed K msgs) :
    (transmit_socket_to_stdout K msgs).stdout.flatten = (forwardedAll K [] msgs).flatten := by
  have h := (relayLoop_spec K msgs [] (-1) [] hwf (by simp [latched])).1
  rw [transmit_socket_to_stdout, h]
  simp

theorem wellFormed_sample : wellFormed linux64 [msgWithFd, msgSentinel, msgPlain] := by
  intro m hm
  simp only [List.mem_cons, List.mem_singleton, List.not_mem_nil, or_false] at hm
  rcases hm with rfl | rfl | rfl
  · refine ⟨by decide, ?_⟩
    intro d hd
    have : d = 5 := by
      simp [carriedFd, msgWithFd, linux64] at hd
      omega
    omega
  · exact ⟨by decide, by intro d hd; simp [carriedFd, msgSentinel] at hd⟩
  · exact ⟨by decide, by intro d hd; simp [carriedFd, msgPlain] at hd⟩

/-- C3 witness: `x` with descriptor 5, then a lone sentinel byte, then `yz`. -/
theorem transmit_socket_to_stdout_bytes_witness :
    wellFormed linux64 [msgWithFd, msgSentinel, msgPlain] ∧
    (transmit_socket_to_stdout linux64 [msgWithFd, msgSentinel, msgPlain]).stdout.flatten =
      (forwardedAll linux64 [] [msgWithFd, msgSentinel, msgPlain]).flatten :=
  ⟨wellFormed_sample, transmit_socket_to_stdout_bytes linux64 _ wellFormed_sample⟩

/-- C4: for every sequence of messages received by `transmit_socket_to_stdout`, the
returned descriptor is the one carried by the last message that carried one, and it
is -1 if and only if no received message carried a descriptor. -/
theorem transmit_socket_to_stdout_fd (K : SockConsts) (msgs : List Msg)
    (hwf : wellFormed K msgs) :
    (∀ (pre post : List Msg) (m : Msg) (d : Int), msgs = pre ++ m :: post →
      carriedFd K m = some d → (∀ x ∈ post, carriedFd K x = none) →
      (transmit_socket_to_stdout K msgs).fd = d) ∧
    ((transmit_socket_to_stdout K msgs).fd = -1 ↔ ∀ m ∈ msgs, carriedFd K m = none) := by
  have h := relayLoop_spec K msgs [] (-1) [] hwf (by simp [latched])
  constructor
  · intro pre post m d hmsgs hc hpost
    have hnil : List.filterMap (carriedFd K) post = [] := by
      rw [List.filterMap_eq_nil_iff]
      exact hpost
    rw [transmit_socket_to_stdout, h.2.2, hmsgs]
    simp [List.filterMap_append, List.filterMap_cons, hc, hnil]
  · have h2 := h.2.1
    rw [transmit_socket_to_stdout]
    constructor
    · intro hfd m hm
      by_contra hne
      have hl : latched K ([] ++ msgs) = true := by
        simp only [latched, List.nil_append, List.any_eq_true]
        exact ⟨m, hm, by
          cases hcm : carriedFd K m with
          | none => exact absurd hcm hne
          | some d => rfl⟩
      exact (h2.mpr hl) hfd
    · intro hall
      by_contra hne
      have hl := h2.mp hne
      simp only [latched, List.nil_append, List.any_eq_true] at hl
      obtain ⟨m, hm, hs⟩ := hl
      rw [hall m hm] at hs
      simp at hs

/-- C4 witness: the sample messages return descriptor 5. -/
theorem transmit_socket_to_stdout_fd_witness :
    wellFormed linux64 [msgWithFd, msgSentinel, msgPlain] ∧
    (∀ (pre post : List Msg) (m : Msg) (d : Int),
      [msgWithFd, msgSentinel, msgPlain] = pre ++ m :: post →
      carriedFd linux64 m = some d → (∀ x ∈ post, carriedFd linux64 x = none) →
      (transmit_socket_to_stdout linux64 [msgWithFd, msgSentinel, msgPlain]).fd = d) ∧
    ((transmit_socket_to_stdout linux64 [msgWithFd, msgSentinel, msgPlain]).fd = -1 ↔
      ∀ m ∈ [msgWithFd, msgSentinel, msgPlain], carriedFd linux64 m = none) :=
  ⟨wellFormed_sample, transmit_socket_to_stdout_fd linux64 _ wellFormed_sample⟩

/-- C9 (amended): for every sequence of messages received by
`transmit_socket_to_stdout` there is one write per message, and the write for a
message is empty exactly when the message is one byte long, that byte is the
sentinel byte, and a descriptor has been latched by this message or by an earlier
one; every other message, a lone sentinel byte received before any descriptor
included, is written verbatim. -/
theorem transmit_socket_to_stdout_suppression (K : SockConsts) (pre post : List Msg) (m : Msg)
    (hwf : wellFormed K (pre ++ m :: post)) :
    (transmit_socket_to_stdout K (pre ++ m :: post)).stdout.length = (pre ++ m :: post).length ∧
    (transmit_socket_to_stdout K (pre ++ m :: post)).stdout[pre.length]? =
      some (if m.payload = [AT_SIGN] ∧ latched K (pre ++ [m]) = true then [] else m.payload) := by
  have h := (relayLoop_spec K (pre ++ m :: post) [] (-1) [] hwf (by simp [latched])).1
  rw [transmit_socket_to_stdout, h]
  constructor
  · simp [forwardedAll_length]
  · have hlen : (forwardedAll K [] pre).length = pre.length := forwardedAll_length K pre []
    rw [List.nil_append, forwardedAll_append, forwardedAll,
      List.getElem?_append_right (by omega), hlen]
    simp [forwarded]

/-- C9 witness: the lone sentinel byte that follows the message with descriptor 5. -/
theorem transmit_socket_to_stdout_suppression_witness :
    wellFormed linux64 ([msgWithFd] ++ msgSentinel :: [msgPlain]) ∧
    (transmit_socket_to_stdout linux64 ([msgWithFd] ++ msgSentinel :: [msgPlain])).stdout.length =
      ([msgWithFd] ++ msgSentinel :: [msgPlain]).length ∧
    (transmit_socket_to_stdout linux64
        ([msgWithFd] ++ msgSentinel :: [msgPlain])).stdout[[msgWithFd].length]? =
      some (if msgSentinel.payload = [AT_SIGN] ∧
        latched linux64 ([msgWithFd] ++ [msgSentinel]) = true then [] else msgSentinel.payload) :=
  ⟨wellFormed_sample,
    transmit_socket_to_stdout_suppression linux64 [msgWithFd] [msgPlain] msgSentinel
      wellFormed_sample⟩

/-- C9 counterexample: the second message is a lone sentinel byte and carries no
descriptor of its own, and still nothing is written for it, because the first
message latched descriptor 5. -/
theorem transmit_socket_to_stdout_suppression_counterexample :
    msgSentinel.payload = [AT_SIGN] ∧ carriedFd linux64 msgSentinel = none ∧
    (transmit_socket_to_stdout linux64 [msgWithFd, msgSentinel]).stdout[1]? = some [] ∧
    (transmit_socket_to_stdout linux64 [msgWithFd, msgSentinel]).stdout[1]? ≠
      some msgSentinel.payload := by
  decide

/-! ## The exit status of `main` -/

/-- Whenever endpoint creation, bind or listen fails, `run_api_command` returns -1,
which `main` reads as "no descriptor": the program ends with status 0. -/
theorem main_resource_error (K : SockConsts) (E : SysEnv) (argv : List CStr)
    (hv : ¬ (argv.length = 2 ∧ argv[1]? = some "--version".toList))
    (hfail : resourceError E) : main K E argv = MainOutcome.exit 0 := by
  have hrun : run_api_command K E argv = RunResult.returned (-1) := by
    unfold run_api_command
    rw [if_neg hv]
    by_cases h1 : E.socket_input_ret = -1
    · rw [if_pos h1]
    rw [if_neg h1]
    by_cases h2 : E.socket_output_ret = -1
    · rw [if_pos h2]
    rw [if_neg h2]
    by_cases h3 : E.bind_input_ret = -1
    · rw [if_pos h3, h3]
    rw [if_neg h3]
    by_cases h4 : E.bind_output_ret = -1
    · rw [if_pos h4, h4]
    rw [if_neg h4]
    by_cases h5 : E.listen_input_ret = -1
    · rw [if_pos h5]
    rw [if_neg h5]
    by_cases h6 : E.listen_output_ret = -1
    · rw [if_pos h6]
    exact absurd hfail (by simp [resourceError, h1, h2, h3, h4, h5, h6])
  simp [main, hrun]

/-- C7, evaluated: for `termux-api Toast` with the first `socket()` failing,
`run_api_command` returns -1 and `main` ends the program with exit status 0. -/
theorem main_exit_status_on_socket_failure :
    resourceError envSocketFails ∧
    run_api_command linux64 envSocketFails ["termux-api".toList, "Toast".toList] =
      RunResult.returned (-1) ∧
    main linux64 envSocketFails ["termux-api".toList, "Toast".toList] = MainOutcome.exit 0 := by
  refine ⟨Or.inl rfl, by decide, ?_⟩
  exact main_resource_error linux64 envSocketFails _ (by decide) (Or.inl rfl)

end TermuxApi
